import Mathlib

/-!
Verification development for the bookCrawler repository.

Shallow embedding of the crawler's pure logic:
* `utils.py` — `make_request` retry loop, `RateLimiter`, `RobotsChecker`,
  `is_likely_product_page`;
* `extractor.py` — `LocationExtractor` (postal-code regex, city derivation,
  contact-page fallback);
* `google_search.py` — `ProductPageFinder` (known URL patterns, direct
  crawl, verification);
* `main.py` — `BookstoreCrawler.crawl_bookstore` orchestration.

HTML parsing (BeautifulSoup) and the network are abstracted as oracle
functions supplied in an environment record; every concrete string
manipulation, regex, control-flow branch and loop of the Python source is
embedded directly.  Network activity is recorded as an explicit event trace.
-/

namespace BookCrawler

/-! ## Character classes (ASCII models of Python's `str` / `re` predicates) -/

/-- Python `str.isdigit` restricted to ASCII, i.e. `\d` of the regex. -/
def isPyDigit (c : Char) : Bool := '0' ≤ c && c ≤ '9'

/-- The regex class `[1-9]` (first digit of a Dutch postal code). -/
def isDigit19 (c : Char) : Bool := '1' ≤ c && c ≤ '9'

/-- Python `\s` on ASCII text: space, tab, newline, carriage return,
vertical tab, form feed. -/
def isPySpace (c : Char) : Bool :=
  c = ' ' || c = '\t' || c = '\n' || c = '\r' || c = '\x0b' || c = '\x0c'

/-- Python `\w` (word character) on ASCII text, used for `\b` boundaries. -/
def isWordChar (c : Char) : Bool := c.isAlpha || isPyDigit c || c = '_'

/-- The uppercase letters of the regex class `[A-EGHJ-NPR-TV-Z]` from
`POSTAL_CODE_CONFIG["pattern"]` in `config.py`.  Note: the class spans
`V-Z`, so it contains `Y`, although the comment above the pattern claims
`Y` is excluded. -/
def allowedUpper (c : Char) : Bool :=
  ('A' ≤ c && c ≤ 'E') || c = 'G' || c = 'H' || ('J' ≤ c && c ≤ 'N') ||
    c = 'P' || ('R' ≤ c && c ≤ 'T') || ('V' ≤ c && c ≤ 'Z')

/-- The class `[A-EGHJ-NPR-TV-Z]` under `re.IGNORECASE`: a character
matches when its uppercase form is in the class. -/
def isClassLetter (c : Char) : Bool := allowedUpper c.toUpper

/-- Python `str.isupper` for a single character, ASCII model. -/
def isUpperAZ (c : Char) : Bool := 'A' ≤ c && c ≤ 'Z'

/-! ## List/string helpers mirroring Python string operations -/

/-- `pat` is a prefix of `l` (Boolean). -/
def isPrefixOfB : List Char → List Char → Bool
  | [], _ => true
  | _ :: _, [] => false
  | a :: as, b :: bs => a == b && isPrefixOfB as bs

/-- Python's substring test `pat in l`. -/
def containsSubList (pat : List Char) : List Char → Bool
  | [] => isPrefixOfB pat []
  | c :: cs => isPrefixOfB pat (c :: cs) || containsSubList pat cs

/-- Python's `sub in s` on strings. -/
def containsStr (s sub : String) : Bool := containsSubList sub.toList s.toList

/-- Python `str.lower` (ASCII model). -/
def lowerStr (s : String) : String := String.mk (s.toList.map Char.toLower)

/-- Strip characters satisfying `p` from both ends (Python `str.strip`). -/
def stripBy (p : Char → Bool) (l : List Char) : List Char :=
  ((l.dropWhile p).reverse.dropWhile p).reverse

/-- Python `str.strip()` (whitespace). -/
def stripWsL (l : List Char) : List Char := stripBy isPySpace l

/-- Python `str.strip('.,;:')` as used on candidate city words. -/
def stripPunct (l : List Char) : List Char :=
  stripBy (fun c => c = '.' || c = ',' || c = ';' || c = ':') l

/-- Worker for `splitWsL`; `acc` is the current word, reversed. -/
def splitWsAux : List Char → List Char → List (List Char)
  | acc, [] => if acc.isEmpty then [] else [acc.reverse]
  | acc, c :: cs =>
      if isPySpace c then
        if acc.isEmpty then splitWsAux [] cs
        else acc.reverse :: splitWsAux [] cs
      else splitWsAux (c :: acc) cs

/-- Python `str.split()` with no argument: split on whitespace runs,
no empty segments. -/
def splitWsL (l : List Char) : List (List Char) := splitWsAux [] l

/-- Python `re.split(r'[,\n\r]', s)`: split on each separator character,
keeping empty segments. -/
def splitCommaNl : List Char → List (List Char)
  | [] => [[]]
  | c :: cs =>
      let r := splitCommaNl cs
      if c = ',' || c = '\n' || c = '\r' then [] :: r
      else
        match r with
        | [] => [[c]]
        | s :: rest => (c :: s) :: rest

/-- `context.split(sep)[0]`: everything before the first occurrence of the
(nonempty) separator `s0 :: srest`; the whole list when absent. -/
def beforeFirstSub (s0 : Char) (srest : List Char) : List Char → List Char
  | [] => []
  | c :: cs =>
      if isPrefixOfB (s0 :: srest) (c :: cs) then []
      else c :: beforeFirstSub s0 srest cs

/-- Worker for `afterLastSub`, structurally recursive on a fuel bound
that always dominates the list length (each step either drops the
matched separator or one character, so the length strictly decreases). -/
def afterLastSubFuel (s0 : Char) (srest : List Char) : Nat → List Char → Option (List Char)
  | 0, _ => none
  | _ + 1, [] => none
  | fuel + 1, c :: cs =>
      if isPrefixOfB (s0 :: srest) (c :: cs) then
        let rest := cs.drop srest.length
        match afterLastSubFuel s0 srest fuel rest with
        | some r => some r
        | none => some rest
      else afterLastSubFuel s0 srest fuel cs

/-- `context.split(sep)[-1]` when `sep in context` (Python split is
non-overlapping, left to right): `some` suffix after the last occurrence,
`none` when the separator does not occur. -/
def afterLastSub (s0 : Char) (srest : List Char) (l : List Char) : Option (List Char) :=
  afterLastSubFuel s0 srest l.length l

/-- Python `" ".join(words)`. -/
def joinSpace : List (List Char) → List Char
  | [] => []
  | [w] => w
  | w :: ws => w ++ ' ' :: joinSpace ws

/-! ## Postal-code regex and city derivation (`extractor.py`, `config.py`)

The compiled pattern is `\b([1-9]\d{3})\s*([A-EGHJ-NPR-TV-Z]{2})\b` with
`re.IGNORECASE` (`POSTAL_CODE_CONFIG["pattern"]`).  `\s*` is greedy, and
since no whitespace character is a class letter the match is deterministic:
maximal whitespace, then exactly two class letters, then a word boundary. -/

/-- The trailing `\b`: the position after the two letters is the end of the
text or a non-word character. -/
def boundaryAfterOk : List Char → Bool
  | [] => true
  | c :: _ => !isWordChar c

/-- Attempt the pattern at the head of `l` (the leading `\b` is checked by
the caller).  On success returns `(group 1, group 2, group 0)`:
the four digits, the two letters as matched, and the full matched text
including the whitespace between them. -/
def matchAt : List Char → Option (List Char × List Char × List Char)
  | d1 :: d2 :: d3 :: d4 :: rest =>
      if isDigit19 d1 && isPyDigit d2 && isPyDigit d3 && isPyDigit d4 then
        let sp := rest.takeWhile isPySpace
        match rest.dropWhile isPySpace with
        | l1 :: l2 :: rest2 =>
            if isClassLetter l1 && isClassLetter l2 && boundaryAfterOk rest2 then
              some ([d1, d2, d3, d4], [l1, l2], [d1, d2, d3, d4] ++ sp ++ [l1, l2])
            else none
        | _ => none
      else none
  | _ => none

/-- Scan left to right for the first match, as `finditer` yields it.
`prev` is the character before the current position (checked for the
leading `\b`), `i` the current index.  Returns
`(start index, group 1, group 2, group 0)`. -/
def findPostalAux : Option Char → Nat → List Char →
    Option (Nat × List Char × List Char × List Char)
  | _, _, [] => none
  | prev, i, c :: cs =>
      let bOk : Bool :=
        match prev with
        | none => true
        | some p => !isWordChar p
      match (if bOk then matchAt (c :: cs) else none) with
      | some (g1, g2, g0) => some (i, g1, g2, g0)
      | none => findPostalAux (some c) (i + 1) cs

/-- First match of the postal-code pattern in `l`. -/
def findPostal (l : List Char) : Option (Nat × List Char × List Char × List Char) :=
  findPostalAux none 0 l

/-- The fixed exclude-list of `LocationExtractor._is_valid_city_name`. -/
def excludeWords : List String :=
  ["Nederland", "Netherlands", "Tel", "Telefoon", "Email", "Mail",
   "Website", "Openingstijden", "Bezoekadres", "Postadres",
   "Straat", "Postbus", "KVK", "BTW", "IBAN"]

/-- `LocationExtractor._is_valid_city_name`: length at least 3, first
character uppercase, not in the exclude-list. -/
def isValidCityName (name : String) : Bool :=
  match name.toList with
  | [] => false
  | c :: rest =>
      if (c :: rest).length < 3 then false
      else if !isUpperAZ c then false
      else !(excludeWords.contains name)

/-- One step of the backward walk in `_extract_city_from_context`: Python
iterates `reversed(words)`, strips `'.,;:'`, and collects while the word is
nonempty, starts uppercase and has length above 2, breaking at the first
failure; here the input is already reversed. -/
def takeQual : List (List Char) → List (List Char)
  | [] => []
  | w :: ws =>
      let w2 := stripPunct w
      match w2 with
      | [] => []
      | c :: _ => if isUpperAZ c && w2.length > 2 then w2 :: takeQual ws else []

/-- `LocationExtractor._extract_city_from_context(context, pcm)`: `pcm` is
`match.group(0)`.  First tries the word after the postal code, then walks
backward through the last comma/newline-separated segment before it. -/
def extractCityFromContext (context pcm : List Char) : Option String :=
  match pcm with
  | [] => none
  | s0 :: srest =>
    let beforePostal := beforeFirstSub s0 srest context
    let afterPostal :=
      match afterLastSub s0 srest context with
      | some r => r
      | none => []
    let afterWords := splitWsL (stripWsL afterPostal)
    let afterCity : Option String :=
      match afterWords with
      | [] => none
      | w :: _ =>
          let cand := String.mk (stripPunct w)
          if isValidCityName cand then some cand else none
    match afterCity with
    | some c => some c
    | none =>
      let parts := splitCommaNl beforePostal
      let lastPart := stripWsL ((parts.getLast?).getD [])
      let words := splitWsL lastPart
      let cityWords := (takeQual words.reverse).reverse
      match cityWords with
      | [] => none
      | _ :: _ =>
          let city := String.mk (joinSpace (cityWords.take 3))
          if isValidCityName city then some city else none

/-- `LocationExtractor._extract_postal_code_and_city(text)`: first regex
match wins (both branches of the Python loop body return), the postal code
is normalised to `"NNNN LL"` with the letters uppercased, and the city is
derived from a context window of 100 characters before and 20 after the
match. -/
def extractPostalCodeAndCity (text : String) : Option String × Option String :=
  let cs := text.toList
  match findPostal cs with
  | none => (none, none)
  | some (i, g1, g2, g0) =>
      let postal := String.mk (g1 ++ ' ' :: g2.map Char.toUpper)
      let stop := i + g0.length
      let context := (cs.take (min cs.length (stop + 20))).drop (i - 100)
      (some postal, extractCityFromContext context g0)

/-- The canonical shape the code actually produces: four digits with the
first in `1-9`, one space, two uppercase letters of the pattern's class. -/
def canonicalPostalB (s : String) : Bool :=
  match s.toList with
  | [a, b, c, d, sp, x, y] =>
      isDigit19 a && isPyDigit b && isPyDigit c && isPyDigit d &&
        sp == ' ' && allowedUpper x && allowedUpper y
  | _ => false

/-! ## Configuration constants (`config.py`) -/

/-- `BOOK_CONFIG["title"]`. -/
def bookTitle : String := "Zanger Ronald zingt de blues"

/-- `BOOK_CONFIG["author"]`. -/
def bookAuthor : String := "Walter van den Berg"

/-- `BOOK_CONFIG["isbn"]`. -/
def bookIsbn : String := "9789048853366"

/-- `CRAWLER_CONFIG["use_google_search"]` (disabled by default). -/
def useGoogleSearch : Bool := false

/-- `POSTAL_CODE_CONFIG["search_locations"]`. -/
def searchLocations : List String :=
  ["footer", "/contact", "/contacteer-ons", "/neem-contact-op",
   "/over-ons", "/vestigingen", "/winkels"]

/-- The contact-link keywords of `LocationExtractor._get_contact_page_urls`. -/
def contactKeywords : List String :=
  ["contact", "over-ons", "about", "vestiging", "winkel", "locatie"]

/-- The catalog keywords of `ProductPageFinder._find_catalog_links`. -/
def catalogKeywords : List String :=
  ["boeken", "books", "catalog", "catalogus", "assortiment", "literatuur"]

/-- The URL indicators of `utils.is_likely_product_page`. -/
def productIndicators : List String :=
  ["/product/", "/boek/", "/boeken/", "/artikel/", "/item/", "/p/",
   "isbn", "zanger-ronald"]

/-- The three known Libris/BLZ URL suffixes of
`ProductPageFinder._try_known_url_patterns`. -/
def knownPatterns : List String :=
  ["/a/walter-van-den-berg/zanger-ronald-zingt-de-blues/501634390#paperback-9789048853366",
   "/a/walter-van-den-berg/zanger-ronald-zingt-de-blues/501634390",
   "/boek/?authortitle=walter-van-den-berg/zanger-ronald-zingt-de-blues--9789048853366"]

/-! ## URL helpers

Models of `urllib.parse` restricted to the absolute `http(s)://host/...`
URLs this crawler handles. -/

/-- Index of the first occurrence of `pat` in `l`. -/
def findSubIdx (pat : List Char) : List Char → Option Nat
  | [] => if isPrefixOfB pat [] then some 0 else none
  | c :: cs =>
      if isPrefixOfB pat (c :: cs) then some 0
      else
        match findSubIdx pat cs with
        | some i => some (i + 1)
        | none => none

/-- `urlparse(url).netloc`: the authority between `://` and the next `/`. -/
def netloc (url : String) : String :=
  let l := url.toList
  match findSubIdx "://".toList l with
  | none => ""
  | some i => String.mk ((l.drop (i + 3)).takeWhile (fun c => c ≠ '/'))

/-- `f"{parsed.scheme}://{parsed.netloc}"` as built by the finder. -/
def schemeHost (url : String) : String :=
  let l := url.toList
  match findSubIdx "://".toList l with
  | none => "://"
  | some i =>
      String.mk (l.take i ++ "://".toList ++ (l.drop (i + 3)).takeWhile (fun c => c ≠ '/'))

/-- The path part after the authority (may be empty). -/
def urlPath (url : String) : String :=
  let l := url.toList
  match findSubIdx "://".toList l with
  | none => url
  | some i => String.mk ((l.drop (i + 3)).dropWhile (fun c => c ≠ '/'))

/-- Everything up to and including the last `/` of a path; `/` when the
path has no slash. -/
def dirOfPath (p : String) : String :=
  let r := p.toList.reverse
  match findSubIdx ['/'] r with
  | none => "/"
  | some i => String.mk ((r.drop i).reverse)

/-- Model of `urllib.parse.urljoin` for the shapes this crawler uses:
an absolute reference wins, `/path` replaces the path, and a relative
reference replaces the last path segment. -/
def urljoin (base rel : String) : String :=
  if containsStr rel "://" then rel
  else if rel = "" then base
  else if isPrefixOfB ['/'] rel.toList then schemeHost base ++ rel
  else schemeHost base ++ dirOfPath (urlPath base) ++ rel

/-- Model of `urllib.parse.quote_plus` on the alphanumeric-and-space
strings it is applied to here (the book title). -/
def quotePlus (s : String) : String :=
  String.mk (s.toList.map (fun c => if c = ' ' then '+' else c))

/-! ## Network events

Every outbound network action of the embedded code is recorded.  The
modules `google_search.py` and `extractor.py` issue requests only through
`utils.make_request` (`rawFetch`); `main.py` additionally consults
`RobotsChecker.can_fetch` (`robotsCheck`, with the inner `robots.txt`
download as `robotsFetch`) and `RateLimiter.wait_if_needed` (`rateWait`).
`guardedFetch` is the politeness-controller-wrapped fetch the
specification describes; no embedded component produces it, because no
such wrapper exists in the source. -/

inductive NetEvent where
  | rawFetch (url : String)
  | guardedFetch (url : String)
  | robotsCheck (url : String)
  | robotsFetch (domain : String)
  | rateWait (url : String)
deriving DecidableEq, Repr

/-- Is the event a raw `make_request` call? -/
def NetEvent.isRaw : NetEvent → Bool
  | .rawFetch _ => true
  | _ => false

/-! ## `utils.make_request`: retry loop with exponential backoff

The network is an oracle mapping the attempt number to that attempt's
outcome.  `.ok body` is an HTTP 200 response, `.status c` any other final
status code, and the remaining constructors the `requests` exceptions the
source distinguishes. -/

inductive FetchOutcome where
  | ok (body : String)
  | status (code : Nat)
  | timeout
  | connError
  | reqError
deriving DecidableEq, Repr

/-- The outcomes the source retries: timeout, connection error, or a
status of at least 500. -/
def retryableB : FetchOutcome → Bool
  | .status c => 500 ≤ c
  | .timeout => true
  | .connError => true
  | _ => false

/-- The value `make_request` returns for an outcome when it does not
retry: the response body on 200, `None` otherwise. -/
def responseOf : FetchOutcome → Option String
  | .ok b => some b
  | _ => none

/-- The loop body of `make_request`: `attempt` is the current index,
the second argument the number of retries still permitted
(`max_retries - attempt`).  Returns the result and the list of backoff
sleeps (`2 ** attempt` seconds each) in order. -/
def makeRequestGo (oracle : Nat → FetchOutcome) (attempt : Nat) :
    Nat → Option String × List Nat
  | 0 =>
      match oracle attempt with
      | .ok b => (some b, [])
      | _ => (none, [])
  | r + 1 =>
      match oracle attempt with
      | .ok b => (some b, [])
      | .status c =>
          if c = 404 then (none, [])
          else if c = 403 then (none, [])
          else if 500 ≤ c then
            let p := makeRequestGo oracle (attempt + 1) r
            (p.1, 2 ^ attempt :: p.2)
          else (none, [])
      | .timeout =>
          let p := makeRequestGo oracle (attempt + 1) r
          (p.1, 2 ^ attempt :: p.2)
      | .connError =>
          let p := makeRequestGo oracle (attempt + 1) r
          (p.1, 2 ^ attempt :: p.2)
      | .reqError => (none, [])

/-- `utils.make_request(url, ..., max_retries)`: up to `maxRetries`
additional attempts after the first. -/
def make_request (oracle : Nat → FetchOutcome) (maxRetries : Nat) :
    Option String × List Nat :=
  makeRequestGo oracle 0 maxRetries

/-- The number of consecutive retryable outcomes from attempt `a` on,
capped by the remaining retries. -/
def retryCountFrom (oracle : Nat → FetchOutcome) (a : Nat) : Nat → Nat
  | 0 => 0
  | r + 1 =>
      if retryableB (oracle a) then retryCountFrom oracle (a + 1) r + 1 else 0

/-! ## `utils.RobotsChecker`

`parsers` caches one parsed policy per domain; a policy is abstracted as a
decision function on URLs (the result of `RobotFileParser.can_fetch` for
the configured user agent).  The oracle maps the index of each attempted
`robots.txt` download to its outcome: `some p` a reachable, parsed policy,
`none` an unreachable or unparsable one (the `except` branch). -/

structure RobotsCheckerState where
  parsers : List (String × (String → Bool))
  fetchCount : Nat

/-- The empty cache a fresh `RobotsChecker` starts with. -/
def initRobots : RobotsCheckerState := ⟨[], 0⟩

/-- Association-list lookup for the per-domain parser cache. -/
def lookupParser : List (String × (String → Bool)) → String → Option (String → Bool)
  | [], _ => none
  | (d, p) :: rest, dom => if d = dom then some p else lookupParser rest dom

/-- `RobotsChecker.can_fetch(url)`: on a cache miss the policy is
downloaded; a successful download is parsed and cached, a failed one
returns `True` without caching anything. -/
def can_fetch (oracle : Nat → Option (String → Bool)) (st : RobotsCheckerState)
    (url : String) : Bool × RobotsCheckerState × List NetEvent :=
  let domain := netloc url
  match lookupParser st.parsers domain with
  | some p => (p url, st, [])
  | none =>
      match oracle st.fetchCount with
      | some p =>
          (p url, ⟨(domain, p) :: st.parsers, st.fetchCount + 1⟩,
            [.robotsFetch domain])
      | none =>
          (true, ⟨st.parsers, st.fetchCount + 1⟩, [.robotsFetch domain])

/-- A sequence of `can_fetch` calls against one checker instance, as one
crawler run makes them. -/
def runCanFetch (oracle : Nat → Option (String → Bool)) (st : RobotsCheckerState) :
    List String → List Bool × RobotsCheckerState × List NetEvent
  | [] => ([], st, [])
  | u :: us =>
      let r1 := can_fetch oracle st u
      let r2 := runCanFetch oracle r1.2.1 us
      (r1.1 :: r2.1, r2.2.1, r1.2.2 ++ r2.2.2)

/-! ## The HTML environment

`fetch` is the outcome of `utils.make_request` per URL (`some body` for a
200 response, `none` for any failure).  The remaining fields abstract the
BeautifulSoup parsing of a fetched document:

* `searchForm html = some (action, name)` stands for the form scan of
  `ProductPageFinder._find_search_url` finding a form with the given
  `action` whose first search-like input is named `name` (already
  lowercased, as the source lowercases it before use);
* `links html` is `soup.find_all('a', href=True)` as `(href, text)` pairs;
* `googleResults html` is the candidate hrefs taken from the first five
  result divs of a Google results page;
* `selTexts html` is the visible text of each element matched by
  `POSTAL_CODE_CONFIG["address_selectors"]`, in selector order;
* `footerTexts html` the text of each footer-like element;
* `fullText html` is `soup.get_text(separator="\n", strip=True)`. -/

structure HtmlEnv where
  fetch : String → Option String
  searchForm : String → Option (String × String)
  links : String → List (String × String)
  googleResults : String → List String
  selTexts : String → List String
  footerTexts : String → List String
  fullText : String → String

/-- Python truthiness of an optional string (`if html_content:`,
`if prefilled_postal_code:`, ...). -/
def truthyOpt : Option String → Bool
  | none => false
  | some s => !s.toList.isEmpty

/-- Python `x or default` on an optional string. -/
def pyOrStr (o : Option String) (d : String) : String :=
  match o with
  | some s => if s.toList.isEmpty then d else s
  | none => d

/-! ## `utils.is_likely_product_page` and product-page verification -/

/-- `utils.is_likely_product_page(url)` as every call site uses it
(without the optional HTML argument): lowercase the URL and look for an
indicator substring. -/
def is_likely_product_page (url : String) : Bool :=
  productIndicators.any (fun ind => containsStr (lowerStr url) ind)

/-- The content check of `ProductPageFinder._verify_product_page`:
(title-or-variant AND author-or-variant) OR ISBN, the text checks
case-insensitive, the ISBN check on the raw body. -/
def verifyBody (body : String) : Bool :=
  let hl := lowerStr body
  let hasTitle := containsStr hl (lowerStr bookTitle) || containsStr hl "zanger ronald"
  let hasAuthor :=
    containsStr hl (lowerStr bookAuthor) || containsStr hl "walter van den berg"
  let hasIsbn := containsStr body bookIsbn
  (hasTitle && hasAuthor) || hasIsbn

/-- `ProductPageFinder._verify_product_page(url)`: fetch the candidate and
check its body; an unfetchable page verifies false. -/
def verify_product_page (env : HtmlEnv) (url : String) : Bool × List NetEvent :=
  match env.fetch url with
  | none => (false, [.rawFetch url])
  | some body => (verifyBody body, [.rawFetch url])

/-! ## `ProductPageFinder` (`google_search.py`) -/

/-- The inline acceptance check of `_try_known_url_patterns`: the body
contains `'zanger ronald'` (lowercased) or the ISBN.  Note it does not
use `_verify_product_page`. -/
def knownAcceptBody (body : String) : Bool :=
  containsStr (lowerStr body) "zanger ronald" || containsStr body bookIsbn

/-- The pattern loop of `_try_known_url_patterns`. -/
def knownLoop (env : HtmlEnv) (base : String) :
    List String → Option String × List NetEvent
  | [] => (none, [])
  | p :: ps =>
      let testUrl := base ++ p
      match env.fetch testUrl with
      | some body =>
          if knownAcceptBody body then (some testUrl, [.rawFetch testUrl])
          else
            let r := knownLoop env base ps
            (r.1, .rawFetch testUrl :: r.2)
      | none =>
          let r := knownLoop env base ps
          (r.1, .rawFetch testUrl :: r.2)

/-- `ProductPageFinder._try_known_url_patterns(site_url)`. -/
def try_known_url_patterns (env : HtmlEnv) (siteUrl : String) :
    Option String × List NetEvent :=
  knownLoop env (schemeHost siteUrl) knownPatterns

/-- `ProductPageFinder._find_search_url(soup, base_url)`: build a search
URL from the first search-like form, or — because the fallback loop
returns on its first iteration — from the fixed path `/zoeken`. -/
def find_search_url (env : HtmlEnv) (html baseUrl : String) : Option String :=
  match env.searchForm html with
  | some (action, name) =>
      let searchPath := if action = "" then "/search" else action
      let searchUrl := urljoin baseUrl searchPath
      let sep := if containsStr searchUrl "?" then "&" else "?"
      some (searchUrl ++ sep ++ name ++ "=" ++ quotePlus bookTitle)
  | none => some (urljoin baseUrl "/zoeken" ++ "?q=" ++ quotePlus bookTitle)

/-- The link loop of `_extract_product_from_search_results` (also used for
catalog pages): link text mentioning the book, product-like URL, then
verification. -/
def scanSearchResultLinks (env : HtmlEnv) (baseUrl : String) :
    List (String × String) → Option String × List NetEvent
  | [] => (none, [])
  | (href, text) :: rest =>
      let tl := lowerStr text
      if containsStr tl "zanger ronald" || containsStr tl (lowerStr bookTitle) then
        let full := urljoin baseUrl href
        if is_likely_product_page full then
          let v := verify_product_page env full
          if v.1 then (some full, v.2)
          else
            let r := scanSearchResultLinks env baseUrl rest
            (r.1, v.2 ++ r.2)
        else scanSearchResultLinks env baseUrl rest
      else scanSearchResultLinks env baseUrl rest

/-- `ProductPageFinder._extract_product_from_search_results(html, base_url)`
(and `_extract_product_from_catalog`, which delegates to it). -/
def extract_product_from_search_results (env : HtmlEnv) (html baseUrl : String) :
    Option String × List NetEvent :=
  scanSearchResultLinks env baseUrl (env.links html)

/-- The homepage-link loop of strategy 2 in `_search_via_direct_crawl`
(same checks, with the title variant tested second). -/
def scanHomepageLinks (env : HtmlEnv) (siteUrl : String) :
    List (String × String) → Option String × List NetEvent
  | [] => (none, [])
  | (href, text) :: rest =>
      let tl := lowerStr text
      if containsStr tl (lowerStr bookTitle) || containsStr tl "zanger ronald" then
        let full := urljoin siteUrl href
        if is_likely_product_page full then
          let v := verify_product_page env full
          if v.1 then (some full, v.2)
          else
            let r := scanHomepageLinks env siteUrl rest
            (r.1, v.2 ++ r.2)
        else scanHomepageLinks env siteUrl rest
      else scanHomepageLinks env siteUrl rest

/-- The keyword filter and dedup of `_find_catalog_links`; the filter
lowercases `href`, the joined URL uses the original `href`. -/
def catalogLinksLoop (baseUrl : String) (acc : List String) :
    List (String × String) → List String
  | [] => acc
  | (href, text) :: rest =>
      if catalogKeywords.any
          (fun k => containsStr (lowerStr href) k || containsStr (lowerStr text) k) then
        let full := urljoin baseUrl href
        if acc.contains full then catalogLinksLoop baseUrl acc rest
        else catalogLinksLoop baseUrl (acc ++ [full]) rest
      else catalogLinksLoop baseUrl acc rest

/-- `ProductPageFinder._find_catalog_links(soup, base_url)`. -/
def find_catalog_links (env : HtmlEnv) (html baseUrl : String) : List String :=
  catalogLinksLoop baseUrl [] (env.links html)

/-- The catalog loop of strategy 3 in `_search_via_direct_crawl`. -/
def catalogLoop (env : HtmlEnv) (siteUrl : String) :
    List String → Option String × List NetEvent
  | [] => (none, [])
  | cu :: rest =>
      match env.fetch cu with
      | some cb =>
          let r := extract_product_from_search_results env cb siteUrl
          match r.1 with
          | some u => (some u, .rawFetch cu :: r.2)
          | none =>
              let r2 := catalogLoop env siteUrl rest
              (r2.1, .rawFetch cu :: (r.2 ++ r2.2))
      | none =>
          let r2 := catalogLoop env siteUrl rest
          (r2.1, .rawFetch cu :: r2.2)

/-- `ProductPageFinder._search_via_direct_crawl(site_url)`: fetch the
homepage, then (1) submit the guessed search form, (2) scan homepage
links, (3) scan up to three catalog pages. -/
def search_via_direct_crawl (env : HtmlEnv) (siteUrl : String) :
    Option String × List NetEvent :=
  match env.fetch siteUrl with
  | none => (none, [.rawFetch siteUrl])
  | some body =>
      let s1 : Option String × List NetEvent :=
        match find_search_url env body siteUrl with
        | some su =>
            match env.fetch su with
            | some sb =>
                let r := extract_product_from_search_results env sb siteUrl
                (r.1, .rawFetch su :: r.2)
            | none => (none, [.rawFetch su])
        | none => (none, [])
      match s1 with
      | (some u, ev1) => (some u, .rawFetch siteUrl :: ev1)
      | (none, ev1) =>
          let s2 := scanHomepageLinks env siteUrl (env.links body)
          match s2 with
          | (some u, ev2) => (some u, .rawFetch siteUrl :: (ev1 ++ ev2))
          | (none, ev2) =>
              let cats := (find_catalog_links env body siteUrl).take 3
              let s3 := catalogLoop env siteUrl cats
              (s3.1, .rawFetch siteUrl :: (ev1 ++ (ev2 ++ s3.2)))

/-- Unwrap Google's `/url?q=...` redirect links
(`url.split('/url?q=')[1].split('&')[0]`). -/
def unwrapGoogleUrl (url : String) : String :=
  if isPrefixOfB "/url?q=".toList url.toList then
    let tail := url.toList.drop 7
    String.mk (beforeFirstSub '&' [] tail)
  else url

/-- The result loop of `_search_via_google` for one results page. -/
def googleResultLoop (env : HtmlEnv) (domain : String) :
    List String → Option String × List NetEvent
  | [] => (none, [])
  | href :: rest =>
      let url := unwrapGoogleUrl href
      if containsStr url domain && is_likely_product_page url then
        let v := verify_product_page env url
        if v.1 then (some url, v.2)
        else
          let r := googleResultLoop env domain rest
          (r.1, v.2 ++ r.2)
      else googleResultLoop env domain rest

/-- The query loop of `ProductPageFinder._search_via_google(site_url)`.
The three query strings only influence which Google URL is fetched; the
URLs are built as in the source. -/
def googleQueryLoop (env : HtmlEnv) (domain : String) :
    List String → Option String × List NetEvent
  | [] => (none, [])
  | q :: rest =>
      let googleUrl := "https://www.google.com/search?q=" ++ quotePlus q
      match env.fetch googleUrl with
      | none =>
          let r := googleQueryLoop env domain rest
          (r.1, .rawFetch googleUrl :: r.2)
      | some body =>
          let r1 := googleResultLoop env domain (env.googleResults body)
          match r1.1 with
          | some u => (some u, .rawFetch googleUrl :: r1.2)
          | none =>
              let r2 := googleQueryLoop env domain rest
              (r2.1, .rawFetch googleUrl :: (r1.2 ++ r2.2))

/-- `ProductPageFinder._search_via_google(site_url)`. -/
def search_via_google (env : HtmlEnv) (siteUrl : String) :
    Option String × List NetEvent :=
  let domain := netloc siteUrl
  googleQueryLoop env domain
    ["site:" ++ domain ++ " \"" ++ bookTitle ++ "\" \"" ++ bookAuthor ++ "\"",
     "site:" ++ domain ++ " \"" ++ bookTitle ++ "\"",
     "site:" ++ domain ++ " " ++ bookIsbn]

/-- `ProductPageFinder.find_product_page(name, url)`: known URL patterns,
then (config-gated, off by default) Google site-search, then the direct
crawl. -/
def find_product_page (env : HtmlEnv) (_bookstoreName siteUrl : String) :
    Option String × List NetEvent :=
  let r1 := try_known_url_patterns env siteUrl
  match r1 with
  | (some u, ev) => (some u, ev)
  | (none, ev1) =>
      let r2 :=
        if useGoogleSearch then search_via_google env siteUrl
        else (none, [])
      match r2 with
      | (some u, ev2) => (some u, ev1 ++ ev2)
      | (none, ev2) =>
          let r3 := search_via_direct_crawl env siteUrl
          (r3.1, ev1 ++ (ev2 ++ r3.2))

/-! ## `LocationExtractor` (`extractor.py`) -/

/-- The inner loops of `_extract_from_address_elements` /
`_extract_from_footer`: run the postal parse over each element text,
return the first result with a postal code. -/
def firstPostal : List String → Option (Option String × Option String)
  | [] => none
  | t :: ts =>
      let r := extractPostalCodeAndCity t
      if r.1.isSome then some r else firstPostal ts

/-- `LocationExtractor._extract_from_html(html, base_url)`: structured
address elements, then footers, then the full page text. -/
def extract_from_html (env : HtmlEnv) (html : String) :
    Option String × Option String :=
  match firstPostal (env.selTexts html) with
  | some r => r
  | none =>
      match firstPostal (env.footerTexts html) with
      | some r => r
      | none =>
          let r := extractPostalCodeAndCity (env.fullText html)
          if r.1.isSome then r else (none, none)

/-- The contact-link collection of `_get_contact_page_urls`: append each
linked URL whose href or text contains a contact keyword, skipping
duplicates. -/
def contactLinksLoop (baseUrl : String) (acc : List String) :
    List (String × String) → List String
  | [] => acc
  | (href, text) :: rest =>
      if contactKeywords.any
          (fun k => containsStr (lowerStr href) k || containsStr (lowerStr text) k) then
        let full := urljoin baseUrl href
        if acc.contains full then contactLinksLoop baseUrl acc rest
        else contactLinksLoop baseUrl (acc ++ [full]) rest
      else contactLinksLoop baseUrl acc rest

/-- `LocationExtractor._get_contact_page_urls(base_url, html_content)`:
the fixed `search_locations` paths joined onto the base, plus (when HTML
was supplied) contact-like links found in it, truncated to 5. -/
def get_contact_page_urls (env : HtmlEnv) (baseUrl : String)
    (html : Option String) : List String :=
  let standard := searchLocations.map (urljoin baseUrl)
  let all :=
    if truthyOpt html then
      contactLinksLoop baseUrl standard (env.links (html.getD ""))
    else standard
  all.take 5

/-- The contact-page loop of `extract_location`: fetch each candidate and
return the first extraction with a postal code. -/
def contactLoop (env : HtmlEnv) : List String →
    (Option String × Option String) × List NetEvent
  | [] => ((none, none), [])
  | cu :: rest =>
      match env.fetch cu with
      | some body =>
          let r := extract_from_html env body
          if r.1.isSome then (r, [.rawFetch cu])
          else
            let r2 := contactLoop env rest
            (r2.1, .rawFetch cu :: r2.2)
      | none =>
          let r2 := contactLoop env rest
          (r2.1, .rawFetch cu :: r2.2)

/-- `LocationExtractor.extract_location(base_url, html_content)`: search
the supplied HTML when it is truthy, else (or when nothing was found) try
the candidate contact pages.  When `html_content` is omitted the base URL
itself is never fetched: the code goes straight to the contact-page
candidates. -/
def extract_location (env : HtmlEnv) (baseUrl : String) (html : Option String) :
    (Option String × Option String) × List NetEvent :=
  let firstTry : Option (Option String × Option String) :=
    if truthyOpt html then
      let r := extract_from_html env (html.getD "")
      if r.1.isSome then some r else none
    else none
  match firstTry with
  | some r => (r, [])
  | none => contactLoop env (get_contact_page_urls env baseUrl html)

/-! ## `BookstoreCrawler.crawl_bookstore` (`main.py`)

The result record of the orchestrator.  `error_message` carries the same
strings the source assigns.  The embedding covers the non-exceptional
paths; the `except Exception` top-level handler has no counterpart because
the embedded operations are total. -/

structure CrawlResult where
  name : String
  homepage_url : String
  product_url : Option String
  postal_code : Option String
  city : Option String
  success : Bool
  error_message : Option String
deriving DecidableEq, Repr

/-- The full crawl environment: the HTML/network oracles, the robots
download oracle, and whether a `RobotsChecker` was installed
(`respect_robots`). -/
structure CrawlEnv where
  html : HtmlEnv
  robotsOracle : Nat → Option (String → Bool)
  robotsEnabled : Bool

/-- `BookstoreCrawler.crawl_bookstore(name, url, prefilled_postal_code,
prefilled_city)`: robots check, rate limit, product-page search, then
either the prefilled location or homepage fetch plus extraction.  Returns
the result, the robots-checker state after the call, and the network
trace. -/
def crawl_bookstore (env : CrawlEnv) (rst : RobotsCheckerState)
    (name url : String) (prefPC prefCity : Option String) :
    CrawlResult × RobotsCheckerState × List NetEvent :=
  let base : CrawlResult := ⟨name, url, none, prefPC, prefCity, false, none⟩
  let rc :=
    if env.robotsEnabled then
      let r := can_fetch env.robotsOracle rst url
      (r.1, r.2.1, NetEvent.robotsCheck url :: r.2.2)
    else (true, rst, [])
  if !rc.1 then
    ({ base with error_message := some "Disallowed by robots.txt" }, rc.2.1, rc.2.2)
  else
    let ev1 := rc.2.2 ++ [NetEvent.rateWait url]
    let fp := find_product_page env.html name url
    match fp.1 with
    | none =>
        ({ base with error_message := some "Product page not found" },
          rc.2.1, ev1 ++ fp.2)
    | some purl =>
        let b1 := { base with product_url := some purl }
        if truthyOpt prefPC && truthyOpt prefCity then
          ({ b1 with success := true }, rc.2.1, ev1 ++ fp.2)
        else
          let ev2 := ev1 ++ fp.2 ++ [NetEvent.rateWait url, NetEvent.rawFetch url]
          match env.html.fetch url with
          | some body =>
              let ex := extract_location env.html url (some body)
              match ex.1.1 with
              | some pc =>
                  ({ b1 with
                      postal_code := some pc,
                      city := some (pyOrStr ex.1.2 "Unknown"),
                      success := true }, rc.2.1, ev2 ++ ex.2)
              | none =>
                  ({ b1 with error_message := some "Postal code not found" },
                    rc.2.1, ev2 ++ ex.2)
          | none =>
              ({ b1 with error_message := some "Could not fetch homepage" },
                rc.2.1, ev2)

/-! ## Definitions used by the claim statements -/

/-- The spec's letter set for the second postal-code group, following the
specification's words: uppercase letters excluding F, I, O, Q, U and Y.
Kept separate from the code's `allowedUpper` (which is derived from the
regex in `config.py`) so the two can be compared. -/
def claimAllowedLetter (c : Char) : Bool :=
  isUpperAZ c &&
    !(c = 'F' || c = 'I' || c = 'O' || c = 'Q' || c = 'U' || c = 'Y')

/-- All events of a trace are raw `make_request` calls. -/
def allRaw (t : List NetEvent) : Bool := t.all NetEvent.isRaw

/-- The specification's politeness property for a trace: every raw fetch
in it is accompanied by a robots check and a rate-limit wait for the same
URL. -/
def politeTraceB (t : List NetEvent) : Bool :=
  t.all fun e =>
    match e with
    | .rawFetch u => t.contains (.robotsCheck u) && t.contains (.rateWait u)
    | _ => true

/-- The candidate URL verified by the shared predicate: the page was
fetched and its body passes `verifyBody`. -/
def verifiedAt (env : HtmlEnv) (u : String) : Prop :=
  ∃ b, env.fetch u = some b ∧ verifyBody b = true

/-- The candidate URL accepted by the inline check of
`_try_known_url_patterns`. -/
def knownAcceptedAt (env : HtmlEnv) (u : String) : Prop :=
  ∃ b, env.fetch u = some b ∧ knownAcceptBody b = true

/-! ## Concrete environments for the counterexamples -/

/-- An HTML environment in which every fetch fails and every parse is
empty. -/
def emptyHtmlEnv : HtmlEnv :=
  { fetch := fun _ => none
    searchForm := fun _ => none
    links := fun _ => []
    googleResults := fun _ => []
    selTexts := fun _ => []
    footerTexts := fun _ => []
    fullText := fun _ => "" }

/-- The first known Libris/BLZ pattern URL for the host `x.example`. -/
def knownHitUrl : String :=
  "https://x.example/a/walter-van-den-berg/zanger-ronald-zingt-de-blues/501634390#paperback-9789048853366"

/-- A page body containing the title variant `'zanger ronald'` but neither
the author nor the ISBN: `_try_known_url_patterns` accepts it while
`_verify_product_page` would reject it. -/
def variantOnlyBody : String := "zanger ronald staat hier"

/-- An environment in which only the first known pattern URL of
`x.example` resolves, to `variantOnlyBody`. -/
def knownHitHtmlEnv : HtmlEnv :=
  { emptyHtmlEnv with
    fetch := fun u => if u = knownHitUrl then some variantOnlyBody else none }

/-- The crawl environment for the orchestrator counterexample: robots are
respected and fully permissive, and only the known pattern URL resolves. -/
def envPrefilledPC : CrawlEnv :=
  { html := knownHitHtmlEnv
    robotsOracle := fun _ => some (fun _ => true)
    robotsEnabled := true }

/-- A robots oracle for which every `robots.txt` download fails. -/
def robotsFailOracle : Nat → Option (String → Bool) := fun _ => none

/-- Claim C1's success condition exactly as the specification words it,
evaluated on the produced record: `product_url` set AND (`postal_code`
set OR both prefilled fields supplied). -/
def successSpecOriginal (r : CrawlResult) (prefPC prefCity : Option String) : Bool :=
  r.product_url.isSome &&
    (r.postal_code.isSome || (truthyOpt prefPC && truthyOpt prefCity))

/-- An environment where the product page is found, the homepage is
fetchable, and a structured element own text carries a postal code with
no adjacent city word. -/
def unknownCityHtmlEnv : HtmlEnv :=
  { emptyHtmlEnv with
    fetch := fun u =>
      if u = knownHitUrl then some variantOnlyBody
      else if u = "https://x.example" then some "homepage" else none
    selTexts := fun _ => ["1234 AB"] }

/-- The crawl environment for the city-defaulting example. -/
def envUnknownCity : CrawlEnv :=
  { html := unknownCityHtmlEnv
    robotsOracle := fun _ => some (fun _ => true)
    robotsEnabled := true }

/-! ## Lemmas about the postal-code matcher -/

theorem matchAt_spec {l g1 g2 g0 : List Char}
    (h : matchAt l = some (g1, g2, g0)) :
    ∃ a b c d x y, g1 = [a, b, c, d] ∧ g2 = [x, y] ∧
      isDigit19 a = true ∧ isPyDigit b = true ∧ isPyDigit c = true ∧
      isPyDigit d = true ∧ isClassLetter x = true ∧ isClassLetter y = true := by
  match l with
  | [] => simp [matchAt] at h
  | [_] => simp [matchAt] at h
  | [_, _] => simp [matchAt] at h
  | [_, _, _] => simp [matchAt] at h
  | d1 :: d2 :: d3 :: d4 :: rest =>
    simp only [matchAt] at h
    split at h
    case isFalse => exact absurd h (by simp)
    case isTrue hd =>
      split at h
      case h_2 => exact absurd h (by simp)
      case h_1 l1 l2 rest2 hdrop =>
        split at h
        case isFalse => exact absurd h (by simp)
        case isTrue hl =>
          simp only [Option.some.injEq, Prod.mk.injEq] at h
          obtain ⟨h1, h2, _⟩ := h
          simp only [Bool.and_eq_true] at hd hl
          exact ⟨d1, d2, d3, d4, l1, l2, h1.symm, h2.symm,
            hd.1.1.1, hd.1.1.2, hd.1.2, hd.2, hl.1.1, hl.1.2⟩

theorem findPostalAux_spec (l : List Char) : ∀ (prev : Option Char) (i j : Nat)
    (g1 g2 g0 : List Char), findPostalAux prev i l = some (j, g1, g2, g0) →
    ∃ l2, matchAt l2 = some (g1, g2, g0) := by
  induction l with
  | nil => intro prev i j g1 g2 g0 h; simp [findPostalAux] at h
  | cons c cs ih =>
      intro prev i j g1 g2 g0 h
      simp only [findPostalAux] at h
      split at h
      case h_1 v g1' g2' g0' hm =>
        split at hm
        case isFalse => exact absurd hm (by simp)
        case isTrue =>
          simp only [Option.some.injEq, Prod.mk.injEq] at h
          obtain ⟨_, h2, h3, h4⟩ := h
          exact ⟨c :: cs, by rw [hm, h2, h3, h4]⟩
      case h_2 => exact ih _ _ _ _ _ _ h

theorem findPostal_spec {l : List Char} {i : Nat} {g1 g2 g0 : List Char}
    (h : findPostal l = some (i, g1, g2, g0)) :
    ∃ l2, matchAt l2 = some (g1, g2, g0) :=
  findPostalAux_spec l none 0 i g1 g2 g0 h

/-- The invariant the extractor establishes: a returned postal code always
has the canonical shape `"NNNN LL"`, with the first digit in `1-9` and
both letters uppercase members of the pattern's letter class. -/
theorem extractPostal_canonical (text : String) (pc : String)
    (h : (extractPostalCodeAndCity text).1 = some pc) :
    canonicalPostalB pc = true := by
  simp only [extractPostalCodeAndCity] at h
  rcases hf : findPostal text.toList with _ | ⟨i, g1, g2, g0⟩
  · rw [hf] at h; simp at h
  · rw [hf] at h
    simp only [Option.some.injEq] at h
    obtain ⟨l2, hm⟩ := findPostal_spec hf
    obtain ⟨a, b, c, d, x, y, hg1, hg2, ha, hb, hc, hd, hx, hy⟩ := matchAt_spec hm
    subst hg1 hg2
    rw [← h]
    simp only [canonicalPostalB, List.map, List.cons_append, List.nil_append]
    simp only [String.toList]
    simp [ha, hb, hc, hd]
    exact ⟨hx, hy⟩

/-- Claim C2 (code_bug evaluation): the claim says extracted letters are
drawn from the alphabet excluding F, I, O, Q, U, Y, and the comment above
the pattern in `config.py` says the same, but the regex class
`[A-EGHJ-NPR-TV-Z]` spans `V-Z` and therefore contains `Y`: on the text
`"1012 AY"` the extractor returns the postal code `"1012 AY"`, whose
second letter is excluded by the claim's letter set. -/
theorem C2_extractor_accepts_Y :
    extractPostalCodeAndCity "1012 AY" = (some "1012 AY", none) ∧
    claimAllowedLetter 'Y' = false ∧ allowedUpper 'Y' = true := by
  refine ⟨by decide, by decide, by decide⟩

/-- Claim C7: the postal-code pattern (with the extractor's normalization)
accepts `"1012 AB"` and `"1012AB"` (normalized to `"1012 AB"`), and no
input text ever produces `"0012 AB"` (leading digit 0) or `"1012 FO"`
(letters F and O are outside the pattern's class). -/
theorem C7_postal_pattern_cases :
    extractPostalCodeAndCity "1012 AB" = (some "1012 AB", none) ∧
    (extractPostalCodeAndCity "1012AB").1 = some "1012 AB" ∧
    (∀ t, (extractPostalCodeAndCity t).1 ≠ some "0012 AB") ∧
    (∀ t, (extractPostalCodeAndCity t).1 ≠ some "1012 FO") := by
  refine ⟨by decide, by decide, ?_, ?_⟩
  · intro t h
    exact absurd (extractPostal_canonical t _ h) (by decide)
  · intro t h
    exact absurd (extractPostal_canonical t _ h) (by decide)

/-- Claim C8: postal-code-and-city extraction on
`"Keizersgracht 1, 1012 AB Amsterdam"` yields `("1012 AB", "Amsterdam")`
(the city is the capitalized word after the match), and on `"1012 AB"`
alone yields `("1012 AB", none)`. -/
theorem C8_city_derivation :
    extractPostalCodeAndCity "Keizersgracht 1, 1012 AB Amsterdam" =
      (some "1012 AB", some "Amsterdam") ∧
    extractPostalCodeAndCity "1012 AB" = (some "1012 AB", none) := by
  refine ⟨by decide, by decide⟩

/-! ## Lemmas about `make_request` -/

theorem retryCountFrom_le (oracle : Nat → FetchOutcome) :
    ∀ r a, retryCountFrom oracle a r ≤ r := by
  intro r
  induction r with
  | zero => intro a; simp [retryCountFrom]
  | succ n ih =>
      intro a
      simp only [retryCountFrom]
      split
      · exact Nat.succ_le_succ (ih (a + 1))
      · exact Nat.zero_le _

theorem makeRequestGo_stop (oracle : Nat → FetchOutcome) (a n : Nat)
    (h : retryableB (oracle a) = false) :
    makeRequestGo oracle a (n + 1) = (responseOf (oracle a), []) := by
  rcases ho : oracle a with b | c | _ | _ | _
  · simp [makeRequestGo, ho, responseOf]
  · have h5 : ¬ (500 ≤ c) := by
      rw [ho] at h; simpa [retryableB] using h
    simp only [makeRequestGo, ho, responseOf]
    split_ifs with h1 h2
    · rfl
    · rfl
    · rfl
  · rw [ho] at h; simp [retryableB] at h
  · rw [ho] at h; simp [retryableB] at h
  · simp [makeRequestGo, ho, responseOf]

theorem makeRequestGo_retry (oracle : Nat → FetchOutcome) (a n : Nat)
    (h : retryableB (oracle a) = true) :
    makeRequestGo oracle a (n + 1) =
      ((makeRequestGo oracle (a + 1) n).1,
        2 ^ a :: (makeRequestGo oracle (a + 1) n).2) := by
  rcases ho : oracle a with b | c | _ | _ | _
  · rw [ho] at h; simp [retryableB] at h
  · have h5 : 500 ≤ c := by
      rw [ho] at h; simpa [retryableB] using h
    have h404 : ¬ (c = 404) := by omega
    have h403 : ¬ (c = 403) := by omega
    simp [makeRequestGo, ho, h404, h403, h5]
  · simp [makeRequestGo, ho]
  · simp [makeRequestGo, ho]
  · rw [ho] at h; simp [retryableB] at h

theorem retryCountFrom_stop (oracle : Nat → FetchOutcome) (a : Nat)
    (h : retryableB (oracle a) = false) :
    ∀ r, retryCountFrom oracle a r = 0
  | 0 => rfl
  | r + 1 => by simp [retryCountFrom, h]

theorem retryCountFrom_step (oracle : Nat → FetchOutcome) (a r : Nat)
    (h : retryableB (oracle a) = true) :
    retryCountFrom oracle a (r + 1) = retryCountFrom oracle (a + 1) r + 1 := by
  simp [retryCountFrom, h]

/-- Full characterization of the retry loop: the result is the
non-retried interpretation of the first non-retryable outcome (or of the
final attempt), and the sleeps are `2 ^ attempt` for each retried
attempt, in order. -/
theorem makeRequestGo_eq (oracle : Nat → FetchOutcome) :
    ∀ r a, makeRequestGo oracle a r =
      (responseOf (oracle (a + retryCountFrom oracle a r)),
       (List.range (retryCountFrom oracle a r)).map (fun i => 2 ^ (a + i))) := by
  intro r
  induction r with
  | zero =>
      intro a
      simp only [retryCountFrom, Nat.add_zero, List.range_zero, List.map_nil]
      rcases h : oracle a with b | c | _ | _ | _ <;>
        simp [makeRequestGo, h, responseOf]
  | succ n ih =>
      intro a
      rcases Bool.eq_false_or_eq_true (retryableB (oracle a)) with hr | hr
      swap
      · rw [makeRequestGo_stop oracle a n hr, retryCountFrom_stop oracle a hr]
        simp
      · rw [makeRequestGo_retry oracle a n hr, ih (a + 1),
          retryCountFrom_step oracle a n hr, Prod.mk.injEq]
        constructor
        · have hidx : a + 1 + retryCountFrom oracle (a + 1) n =
              a + (retryCountFrom oracle (a + 1) n + 1) := by omega
          rw [hidx]
        · rw [List.range_succ_eq_map, List.map_cons, List.map_map]
          refine congrArg₂ _ (by simp) ?_
          apply List.map_congr_left
          intro i _
          simp only [Function.comp_apply]
          congr 1
          omega

/-- Claim C6: `make_request` retries exactly the leading run of retryable
outcomes (timeout, connection error, HTTP status at least 500), sleeping
`2 ^ attempt` seconds before each retry, makes at most `maxRetries`
retries beyond the first attempt, and on a non-retryable first outcome
(success, 404, 403, other status, other request exception) returns that
outcome's value immediately with no sleep. -/
theorem C6_make_request_retries (oracle : Nat → FetchOutcome) (maxRetries : Nat) :
    make_request oracle maxRetries =
      (responseOf (oracle (retryCountFrom oracle 0 maxRetries)),
       (List.range (retryCountFrom oracle 0 maxRetries)).map (fun i => 2 ^ i)) ∧
    retryCountFrom oracle 0 maxRetries ≤ maxRetries ∧
    (∀ i, i < retryCountFrom oracle 0 maxRetries → retryableB (oracle i) = true) ∧
    (retryableB (oracle 0) = false →
      make_request oracle maxRetries = (responseOf (oracle 0), [])) := by
  have key := makeRequestGo_eq oracle maxRetries 0
  simp only [Nat.zero_add] at key
  refine ⟨by simp only [make_request]; simpa using key,
    retryCountFrom_le oracle maxRetries 0, ?_, ?_⟩
  · have main : ∀ r a i, i < retryCountFrom oracle a r →
        retryableB (oracle (a + i)) = true := by
      intro r
      induction r with
      | zero => intro a i h; simp [retryCountFrom] at h
      | succ n ih =>
          intro a i h
          simp only [retryCountFrom] at h
          by_cases hr : retryableB (oracle a) = true
          · rw [if_pos hr] at h
            match i with
            | 0 => simpa using hr
            | j + 1 =>
                have := ih (a + 1) j (by omega)
                have harr : a + (j + 1) = a + 1 + j := by omega
                rw [harr]
                exact this
          · rw [if_neg hr] at h
            omega
    intro i hi
    have := main maxRetries 0 i (by simpa using hi)
    simpa using this
  · intro h0
    have hz : retryCountFrom oracle 0 maxRetries = 0 :=
      retryCountFrom_stop oracle 0 h0 maxRetries
    simp only [make_request]
    rw [key, hz]
    simp

/-! ## Lemmas about `RobotsChecker.can_fetch` -/

theorem can_fetch_cached (oracle : Nat → Option (String → Bool))
    (st : RobotsCheckerState) (url : String) (p : String → Bool)
    (h : lookupParser st.parsers (netloc url) = some p) :
    can_fetch oracle st url = (p url, st, []) := by
  simp [can_fetch, h]

theorem can_fetch_success (oracle : Nat → Option (String → Bool))
    (st : RobotsCheckerState) (url : String) (p : String → Bool)
    (h1 : lookupParser st.parsers (netloc url) = none)
    (h2 : oracle st.fetchCount = some p) :
    can_fetch oracle st url =
      (p url, ⟨(netloc url, p) :: st.parsers, st.fetchCount + 1⟩,
        [.robotsFetch (netloc url)]) := by
  simp [can_fetch, h1, h2]

theorem can_fetch_failure (oracle : Nat → Option (String → Bool))
    (st : RobotsCheckerState) (url : String)
    (h1 : lookupParser st.parsers (netloc url) = none)
    (h2 : oracle st.fetchCount = none) :
    can_fetch oracle st url =
      (true, ⟨st.parsers, st.fetchCount + 1⟩, [.robotsFetch (netloc url)]) := by
  simp [can_fetch, h1, h2]

/-- When every `robots.txt` download succeeds, a run downloads each
domain's policy at most once (not at all when it is already cached). -/
theorem runCanFetch_fetch_bound (oracle : Nat → Option (String → Bool))
    (d : String) (hsucc : ∀ n, (oracle n).isSome = true) :
    ∀ (urls : List String) (st : RobotsCheckerState),
      ((runCanFetch oracle st urls).2.2.countP (fun e => e = .robotsFetch d)) ≤
        (if (lookupParser st.parsers d).isSome then 0 else 1) := by
  intro urls
  induction urls with
  | nil =>
      intro st
      simp [runCanFetch]
  | cons u us ih =>
      intro st
      rcases hl : lookupParser st.parsers (netloc u) with _ | p
      · obtain ⟨p, hp⟩ : ∃ p, oracle st.fetchCount = some p := by
          have := hsucc st.fetchCount
          rcases ho : oracle st.fetchCount with _ | p
          · rw [ho] at this; simp at this
          · exact ⟨p, rfl⟩
        have hc := can_fetch_success oracle st u p hl hp
        simp only [runCanFetch, hc, List.countP_append]
        by_cases hd : d = netloc u
        · have hcached :
              lookupParser ((netloc u, p) :: st.parsers) d = some p := by
            simp [lookupParser, hd]
          have hrest := ih (⟨(netloc u, p) :: st.parsers, st.fetchCount + 1⟩ :
            RobotsCheckerState)
          rw [show (⟨(netloc u, p) :: st.parsers, st.fetchCount + 1⟩ :
            RobotsCheckerState).parsers = (netloc u, p) :: st.parsers from rfl,
            hcached] at hrest
          simp only [Option.isSome_some, if_true] at hrest
          have hone : ([NetEvent.robotsFetch (netloc u)].countP
              (fun e => e = .robotsFetch d)) = 1 := by
            simp [List.countP_cons, hd]
          have hnone : lookupParser st.parsers d = none := by rw [hd, hl]
          rw [hnone]
          simp only [Option.isSome_none, Bool.false_eq_true, if_false]
          omega
        · have hrest := ih (⟨(netloc u, p) :: st.parsers, st.fetchCount + 1⟩ :
            RobotsCheckerState)
          have hsame :
              lookupParser ((netloc u, p) :: st.parsers) d =
                lookupParser st.parsers d := by
            simp only [lookupParser]
            rw [if_neg (by intro hne; exact hd hne.symm)]
          rw [show (⟨(netloc u, p) :: st.parsers, st.fetchCount + 1⟩ :
            RobotsCheckerState).parsers = (netloc u, p) :: st.parsers from rfl,
            hsame] at hrest
          have hzero : ([NetEvent.robotsFetch (netloc u)].countP
              (fun e => e = .robotsFetch d)) = 0 := by
            simp only [List.countP_cons, List.countP_nil,
              NetEvent.robotsFetch.injEq]
            rw [if_neg]
            simp only [decide_eq_true_eq]
            intro hne
            exact hd hne.symm
          omega
      · have hc := can_fetch_cached oracle st u p hl
        simp only [runCanFetch, hc, List.countP_nil, List.nil_append]
        exact ih st

/-- Claim C5 counterexample: with an unreachable `robots.txt`, two
requests to the same domain each download `robots.txt` again — the
failed download is never cached, so the policy is not "fetched once on
the first request". -/
theorem C5_refetch_counterexample :
    (runCanFetch robotsFailOracle initRobots
        ["http://x.nl/a", "http://x.nl/b"]).2.2 =
      [.robotsFetch "x.nl", .robotsFetch "x.nl"] ∧
    ¬ ((runCanFetch robotsFailOracle initRobots
        ["http://x.nl/a", "http://x.nl/b"]).2.2.countP
          (fun e => e = .robotsFetch "x.nl") ≤ 1) := by
  refine ⟨by decide, by decide⟩

/-- Claim C5 (amended): a domain's robots policy is downloaded on the
first request and cached only when the download succeeds — the cached
decision is then reused with no further download, and with all downloads
succeeding a run downloads each domain's policy at most once; when the
download fails the check returns allowed for the URL and caches nothing
(so a later request to the same domain downloads again). -/
theorem C5_robots_cache_and_fallback :
    (∀ (oracle : Nat → Option (String → Bool)) (st : RobotsCheckerState)
        (url : String) (p : String → Bool),
      lookupParser st.parsers (netloc url) = some p →
        can_fetch oracle st url = (p url, st, [])) ∧
    (∀ (oracle : Nat → Option (String → Bool)) (st : RobotsCheckerState)
        (url : String) (p : String → Bool),
      lookupParser st.parsers (netloc url) = none →
        oracle st.fetchCount = some p →
        can_fetch oracle st url =
          (p url, ⟨(netloc url, p) :: st.parsers, st.fetchCount + 1⟩,
            [.robotsFetch (netloc url)])) ∧
    (∀ (oracle : Nat → Option (String → Bool)) (st : RobotsCheckerState)
        (url : String),
      lookupParser st.parsers (netloc url) = none →
        oracle st.fetchCount = none →
        can_fetch oracle st url =
          (true, ⟨st.parsers, st.fetchCount + 1⟩,
            [.robotsFetch (netloc url)])) ∧
    (∀ (oracle : Nat → Option (String → Bool)) (urls : List String) (d : String),
      (∀ n, (oracle n).isSome = true) →
        ((runCanFetch oracle initRobots urls).2.2.countP
          (fun e => e = .robotsFetch d)) ≤ 1) := by
  refine ⟨can_fetch_cached, can_fetch_success, can_fetch_failure, ?_⟩
  intro oracle urls d hsucc
  have := runCanFetch_fetch_bound oracle d hsucc urls initRobots
  simp only [initRobots, lookupParser] at this
  simpa using this

/-! ## Trace lemmas: the finder and extractor only ever call the raw
fetcher -/

theorem allRaw_nil : allRaw [] = true := rfl

theorem allRaw_cons (e : NetEvent) (t : List NetEvent) :
    allRaw (e :: t) = (NetEvent.isRaw e && allRaw t) := by
  simp [allRaw]

theorem allRaw_append (s t : List NetEvent) :
    allRaw (s ++ t) = (allRaw s && allRaw t) := by
  simp [allRaw]

theorem allRaw_verify (env : HtmlEnv) (u : String) :
    allRaw (verify_product_page env u).2 = true := by
  rcases h : env.fetch u with _ | b <;>
    simp [verify_product_page, h, allRaw, NetEvent.isRaw]

theorem allRaw_knownLoop (env : HtmlEnv) (base : String) :
    ∀ ps, allRaw (knownLoop env base ps).2 = true := by
  intro ps
  induction ps with
  | nil => simp [knownLoop, allRaw]
  | cons p rest ih =>
      rcases h : env.fetch (base ++ p) with _ | b
      · simp [knownLoop, h, allRaw_cons, NetEvent.isRaw, ih]
      · by_cases hb : knownAcceptBody b = true
        · simp [knownLoop, h, hb, allRaw_cons, NetEvent.isRaw, allRaw_nil]
        · simp [knownLoop, h, hb, allRaw_cons, NetEvent.isRaw, ih]

theorem allRaw_scanSearch (env : HtmlEnv) (baseUrl : String) :
    ∀ links, allRaw (scanSearchResultLinks env baseUrl links).2 = true := by
  intro links
  induction links with
  | nil => simp [scanSearchResultLinks, allRaw]
  | cons l rest ih =>
      obtain ⟨href, text⟩ := l
      simp only [scanSearchResultLinks]
      split
      · split
        · split
          · simpa using allRaw_verify env (urljoin baseUrl href)
          · simp only
            rw [allRaw_append]
            simp [allRaw_verify, ih]
        · exact ih
      · exact ih

theorem allRaw_scanHome (env : HtmlEnv) (siteUrl : String) :
    ∀ links, allRaw (scanHomepageLinks env siteUrl links).2 = true := by
  intro links
  induction links with
  | nil => simp [scanHomepageLinks, allRaw]
  | cons l rest ih =>
      obtain ⟨href, text⟩ := l
      simp only [scanHomepageLinks]
      split
      · split
        · split
          · simpa using allRaw_verify env (urljoin siteUrl href)
          · simp only
            rw [allRaw_append]
            simp [allRaw_verify, ih]
        · exact ih
      · exact ih

theorem allRaw_extract_search (env : HtmlEnv) (html baseUrl : String) :
    allRaw (extract_product_from_search_results env html baseUrl).2 = true :=
  allRaw_scanSearch env baseUrl (env.links html)

theorem allRaw_catalogLoop (env : HtmlEnv) (siteUrl : String) :
    ∀ cats, allRaw (catalogLoop env siteUrl cats).2 = true := by
  intro cats
  induction cats with
  | nil => simp [catalogLoop, allRaw]
  | cons cu rest ih =>
      simp only [catalogLoop]
      rcases h : env.fetch cu with _ | cb
      · simp [h, allRaw_cons, NetEvent.isRaw, ih]
      · simp only [h]
        split
        · simp [allRaw_cons, NetEvent.isRaw, allRaw_extract_search]
        · simp [allRaw_cons, allRaw_append, NetEvent.isRaw,
            allRaw_extract_search, ih]

theorem allRaw_googleResultLoop (env : HtmlEnv) (domain : String) :
    ∀ hrefs, allRaw (googleResultLoop env domain hrefs).2 = true := by
  intro hrefs
  induction hrefs with
  | nil => simp [googleResultLoop, allRaw]
  | cons href rest ih =>
      simp only [googleResultLoop]
      split
      · split
        · simpa using allRaw_verify env (unwrapGoogleUrl href)
        · simp only
          rw [allRaw_append]
          simp [allRaw_verify, ih]
      · exact ih

theorem allRaw_googleQueryLoop (env : HtmlEnv) (domain : String) :
    ∀ qs, allRaw (googleQueryLoop env domain qs).2 = true := by
  intro qs
  induction qs with
  | nil => simp [googleQueryLoop, allRaw]
  | cons q rest ih =>
      simp only [googleQueryLoop]
      rcases h : env.fetch ("https://www.google.com/search?q=" ++ quotePlus q)
        with _ | body
      · simp [h, allRaw_cons, NetEvent.isRaw, ih]
      · simp only [h]
        split
        · simp [allRaw_cons, NetEvent.isRaw, allRaw_googleResultLoop]
        · simp [allRaw_cons, allRaw_append, NetEvent.isRaw,
            allRaw_googleResultLoop, ih]

theorem allRaw_direct (env : HtmlEnv) (siteUrl : String) :
    allRaw (search_via_direct_crawl env siteUrl).2 = true := by
  rcases h : env.fetch siteUrl with _ | body
  · simp [search_via_direct_crawl, h, allRaw_cons, NetEvent.isRaw, allRaw_nil]
  · have hs2 : allRaw (scanHomepageLinks env siteUrl (env.links body)).2 = true :=
      allRaw_scanHome env siteUrl (env.links body)
    rcases h2 : scanHomepageLinks env siteUrl (env.links body) with ⟨s2o, s2ev⟩
    rw [h2] at hs2
    have hcat := allRaw_catalogLoop env siteUrl
      ((find_catalog_links env body siteUrl).take 3)
    rcases hf : find_search_url env body siteUrl with _ | su
    · simp only [search_via_direct_crawl, h, hf, h2]
      rcases s2o with _ | u
      · simp [allRaw_cons, allRaw_append, NetEvent.isRaw, hs2, hcat]
      · simp [allRaw_cons, allRaw_append, NetEvent.isRaw, hs2]
    · rcases hsu : env.fetch su with _ | sb
      · simp only [search_via_direct_crawl, h, hf, hsu, h2]
        rcases s2o with _ | u
        · simp [allRaw_cons, allRaw_append, NetEvent.isRaw, hs2, hcat]
        · simp [allRaw_cons, allRaw_append, NetEvent.isRaw, hs2]
      · have hse : allRaw (extract_product_from_search_results env sb siteUrl).2 =
            true := allRaw_extract_search env sb siteUrl
        rcases hr : extract_product_from_search_results env sb siteUrl with ⟨ro, rev⟩
        rw [hr] at hse
        simp only [search_via_direct_crawl, h, hf, hsu, hr, h2]
        rcases ro with _ | u
        · rcases s2o with _ | u2
          · simp [allRaw_cons, allRaw_append, NetEvent.isRaw, hs2, hse, hcat]
          · simp [allRaw_cons, allRaw_append, NetEvent.isRaw, hs2, hse]
        · simp [allRaw_cons, NetEvent.isRaw, hse]

theorem allRaw_find_product_page (env : HtmlEnv) (nm siteUrl : String) :
    allRaw (find_product_page env nm siteUrl).2 = true := by
  have hk : allRaw (try_known_url_patterns env siteUrl).2 = true :=
    allRaw_knownLoop env (schemeHost siteUrl) knownPatterns
  rcases hk1 : try_known_url_patterns env siteUrl with ⟨ko, kev⟩
  rw [hk1] at hk
  have hd := allRaw_direct env siteUrl
  simp only [find_product_page, hk1, useGoogleSearch, if_false]
  rcases ko with _ | u
  · simp [allRaw_append, hk, hd]
  · simpa using hk

theorem allRaw_contactLoop (env : HtmlEnv) :
    ∀ urls, allRaw (contactLoop env urls).2 = true := by
  intro urls
  induction urls with
  | nil => simp [contactLoop, allRaw]
  | cons cu rest ih =>
      simp only [contactLoop]
      rcases h : env.fetch cu with _ | body
      · simp [h, allRaw_cons, NetEvent.isRaw, ih]
      · simp only [h]
        split
        · simp [allRaw_cons, NetEvent.isRaw, allRaw_nil]
        · simp [allRaw_cons, NetEvent.isRaw, ih]

theorem allRaw_extract_location (env : HtmlEnv) (baseUrl : String)
    (html : Option String) :
    allRaw (extract_location env baseUrl html).2 = true := by
  simp only [extract_location]
  split
  · simp [allRaw]
  · exact allRaw_contactLoop env _

/-- Every event of the contact-page loop is a raw fetch of one of the
candidate URLs it was given. -/
theorem contactLoop_events_mem (env : HtmlEnv) :
    ∀ (urls : List String) (e : NetEvent), e ∈ (contactLoop env urls).2 →
      ∃ u, u ∈ urls ∧ e = .rawFetch u := by
  intro urls
  induction urls with
  | nil =>
      intro e he
      rw [show contactLoop env [] = ((none, none), []) from rfl] at he
      simp at he
  | cons cu rest ih =>
      intro e he
      simp only [contactLoop] at he
      rcases h : env.fetch cu with _ | body
      · rw [h] at he
        simp only [List.mem_cons] at he
        rcases he with he | he
        · exact ⟨cu, List.mem_cons_self cu rest, he⟩
        · obtain ⟨u, hu, heq⟩ := ih e he
          exact ⟨u, List.mem_cons_of_mem cu hu, heq⟩
      · rw [h] at he
        have he1 : e ∈ (if (extract_from_html env body).1.isSome = true
            then (extract_from_html env body, [NetEvent.rawFetch cu])
            else ((contactLoop env rest).1,
              NetEvent.rawFetch cu :: (contactLoop env rest).2)).2 := he
        by_cases hr : (extract_from_html env body).1.isSome = true
        · rw [if_pos hr] at he1
          have he2 : e ∈ [NetEvent.rawFetch cu] := he1
          simp only [List.mem_singleton] at he2
          exact ⟨cu, List.mem_cons_self cu rest, he2⟩
        · rw [if_neg hr] at he1
          have he2 : e ∈ NetEvent.rawFetch cu :: (contactLoop env rest).2 := he1
          simp only [List.mem_cons] at he2
          rcases he2 with he2 | he2
          · exact ⟨cu, List.mem_cons_self cu rest, he2⟩
          · obtain ⟨u, hu, heq⟩ := ih e he2
            exact ⟨u, List.mem_cons_of_mem cu hu, heq⟩

/-- Claim C4 counterexample: on a concrete bookstore the finder's first
strategy fetches the known pattern URL through `make_request`, with no
robots check and no rate-limit wait anywhere in its trace — the fetch
does not go through the politeness components, which the Finder never
calls. -/
theorem C4_unpoliced_fetch_counterexample :
    (find_product_page knownHitHtmlEnv "Boekhandel X" "https://x.example").2 =
      [.rawFetch knownHitUrl] ∧
    ((find_product_page knownHitHtmlEnv "Boekhandel X" "https://x.example").2.any
      NetEvent.isRaw = true) ∧
    politeTraceB
      (find_product_page knownHitHtmlEnv "Boekhandel X" "https://x.example").2 =
      false := by
  refine ⟨by decide, by decide, by decide⟩

/-- Claim C4 (amended): every network event the Product-Page Finder or
the Address Extractor produces, in every environment, is a direct
`make_request` call — neither component ever invokes the robots checker
or the rate limiter; the politeness components are applied only by the
orchestrator, and only to the homepage URL. -/
theorem C4_components_use_raw_fetcher :
    (∀ (env : HtmlEnv) (nm siteUrl : String),
      allRaw (find_product_page env nm siteUrl).2 = true) ∧
    (∀ (env : HtmlEnv) (baseUrl : String) (html : Option String),
      allRaw (extract_location env baseUrl html).2 = true) :=
  ⟨allRaw_find_product_page, allRaw_extract_location⟩

/-- Claim C9 counterexample: calling `extract_location` with the HTML
argument omitted on a base URL for which every fetch fails produces a
nonempty trace of contact-page fetches whose first element is the
`/footer` candidate — the base URL itself is never fetched. -/
theorem C9_no_base_fetch_counterexample :
    ((extract_location emptyHtmlEnv "https://shop.example" none).2 ≠ []) ∧
    ((extract_location emptyHtmlEnv "https://shop.example" none).2.contains
      (NetEvent.rawFetch "https://shop.example") = false) ∧
    ((extract_location emptyHtmlEnv "https://shop.example" none).2.head? =
      some (.rawFetch "https://shop.example/footer")) := by
  refine ⟨by decide, by decide, by decide⟩

/-- Claim C9 (amended): when the HTML argument is omitted the extractor
skips the in-document search entirely and goes straight to the fixed
contact-page candidates (the first five of `search_locations` joined onto
the base URL), fetching only those through the raw fetcher; the base URL
document itself is never fetched. -/
theorem C9_omitted_html_contact_fallback :
    (∀ (env : HtmlEnv) (baseUrl : String),
      extract_location env baseUrl none =
        contactLoop env ((searchLocations.map (urljoin baseUrl)).take 5)) ∧
    (∀ (env : HtmlEnv) (e : NetEvent),
      e ∈ (extract_location env "https://shop.example" none).2 →
        ∃ u, u ∈ (searchLocations.map (urljoin "https://shop.example")).take 5 ∧
          e = NetEvent.rawFetch u) ∧
    (∀ env : HtmlEnv,
      ¬ (NetEvent.rawFetch "https://shop.example" ∈
        (extract_location env "https://shop.example" none).2)) := by
  have h1 : ∀ env : HtmlEnv, extract_location env "https://shop.example" none =
      contactLoop env ((searchLocations.map (urljoin "https://shop.example")).take 5) :=
    fun env => rfl
  refine ⟨fun env baseUrl => rfl, ?_, ?_⟩
  · intro env e he
    rw [h1 env] at he
    exact contactLoop_events_mem env _ e he
  · intro env hmem
    rw [h1 env] at hmem
    obtain ⟨u, hu, heq⟩ := contactLoop_events_mem env _ _ hmem
    injection heq with hb
    rw [← hb] at hu
    exact absurd hu (by decide)

/-! ## Verification-funnel lemmas (`ProductPageFinder`) -/

theorem verify_true {env : HtmlEnv} {u : String}
    (h : (verify_product_page env u).1 = true) : verifiedAt env u := by
  rcases hf : env.fetch u with _ | b
  · simp only [verify_product_page, hf] at h
    exact absurd h (by simp)
  · simp only [verify_product_page, hf] at h
    exact ⟨b, hf, h⟩

theorem scanSearch_verified (env : HtmlEnv) (baseUrl : String) :
    ∀ (links : List (String × String)) (u : String),
      (scanSearchResultLinks env baseUrl links).1 = some u → verifiedAt env u := by
  intro links
  induction links with
  | nil => intro u h; simp [scanSearchResultLinks] at h
  | cons l rest ih =>
      obtain ⟨href, text⟩ := l
      intro u h
      simp only [scanSearchResultLinks] at h
      split at h
      · split at h
        · split at h
          case isTrue hv =>
            have hu : urljoin baseUrl href = u := by simpa using h
            rw [← hu]
            exact verify_true hv
          case isFalse hv => exact ih u (by simpa using h)
        · exact ih u h
      · exact ih u h

theorem scanHome_verified (env : HtmlEnv) (siteUrl : String) :
    ∀ (links : List (String × String)) (u : String),
      (scanHomepageLinks env siteUrl links).1 = some u → verifiedAt env u := by
  intro links
  induction links with
  | nil => intro u h; simp [scanHomepageLinks] at h
  | cons l rest ih =>
      obtain ⟨href, text⟩ := l
      intro u h
      simp only [scanHomepageLinks] at h
      split at h
      · split at h
        · split at h
          case isTrue hv =>
            have hu : urljoin siteUrl href = u := by simpa using h
            rw [← hu]
            exact verify_true hv
          case isFalse hv => exact ih u (by simpa using h)
        · exact ih u h
      · exact ih u h

theorem extract_search_verified (env : HtmlEnv) (html baseUrl u : String)
    (h : (extract_product_from_search_results env html baseUrl).1 = some u) :
    verifiedAt env u :=
  scanSearch_verified env baseUrl (env.links html) u h

theorem catalogLoop_verified (env : HtmlEnv) (siteUrl : String) :
    ∀ (cats : List String) (u : String),
      (catalogLoop env siteUrl cats).1 = some u → verifiedAt env u := by
  intro cats
  induction cats with
  | nil => intro u h; simp [catalogLoop] at h
  | cons cu rest ih =>
      intro u h
      rcases hc : env.fetch cu with _ | cb
      · simp only [catalogLoop, hc] at h
        exact ih u h
      · rcases hr : (extract_product_from_search_results env cb siteUrl).1 with _ | u2
        · simp only [catalogLoop, hc, hr] at h
          exact ih u h
        · simp only [catalogLoop, hc, hr, Option.some.injEq] at h
          rw [← h]
          exact extract_search_verified env cb siteUrl u2 hr

theorem direct_verified (env : HtmlEnv) (siteUrl : String) :
    ∀ u, (search_via_direct_crawl env siteUrl).1 = some u → verifiedAt env u := by
  intro u h
  rcases hh : env.fetch siteUrl with _ | body
  · simp [search_via_direct_crawl, hh] at h
  · have hs2 := scanHome_verified env siteUrl (env.links body)
    rcases h2 : scanHomepageLinks env siteUrl (env.links body) with ⟨s2o, s2ev⟩
    have hcat := catalogLoop_verified env siteUrl
      ((find_catalog_links env body siteUrl).take 3)
    rcases hf : find_search_url env body siteUrl with _ | su
    · simp only [search_via_direct_crawl, hh, hf, h2] at h
      rcases s2o with _ | u2
      · exact hcat u (by simpa using h)
      · have := hs2 u2 (by rw [h2])
        have hu : u2 = u := by simpa using h
        rw [← hu]
        exact this
    · rcases hsu : env.fetch su with _ | sb
      · simp only [search_via_direct_crawl, hh, hf, hsu, h2] at h
        rcases s2o with _ | u2
        · exact hcat u (by simpa using h)
        · have := hs2 u2 (by rw [h2])
          have hu : u2 = u := by simpa using h
          rw [← hu]
          exact this
      · rcases hr : extract_product_from_search_results env sb siteUrl with ⟨ro, rev⟩
        simp only [search_via_direct_crawl, hh, hf, hsu, hr, h2] at h
        rcases ro with _ | u1
        · rcases s2o with _ | u2
          · exact hcat u (by simpa using h)
          · have := hs2 u2 (by rw [h2])
            have hu : u2 = u := by simpa using h
            rw [← hu]
            exact this
        · have hu : u1 = u := by simpa using h
          rw [← hu]
          exact extract_search_verified env sb siteUrl u1 (by rw [hr])

theorem knownLoop_accepted (env : HtmlEnv) (base : String) :
    ∀ (ps : List String) (u : String),
      (knownLoop env base ps).1 = some u → knownAcceptedAt env u := by
  intro ps
  induction ps with
  | nil => intro u h; simp [knownLoop] at h
  | cons p rest ih =>
      intro u h
      rcases hf : env.fetch (base ++ p) with _ | body
      · simp only [knownLoop, hf] at h
        exact ih u h
      · rcases Bool.eq_false_or_eq_true (knownAcceptBody body) with hb | hb
        · simp only [knownLoop, hf, hb] at h
          have h2 : base ++ p = u := by simpa using h
          exact ⟨body, by rw [← h2]; exact hf, hb⟩
        · simp only [knownLoop, hf, hb] at h
          have h2 : (knownLoop env base rest).1 = some u := by simpa using h
          exact ih u h2

theorem find_product_page_accepted (env : HtmlEnv) (nm siteUrl u : String)
    (h : (find_product_page env nm siteUrl).1 = some u) :
    knownAcceptedAt env u ∨ verifiedAt env u := by
  rcases hk : try_known_url_patterns env siteUrl with ⟨ko, kev⟩
  rcases ko with _ | u1
  · simp only [find_product_page, hk, useGoogleSearch, if_false] at h
    exact Or.inr (direct_verified env siteUrl u (by simpa using h))
  · simp only [find_product_page, hk] at h
    have hu : u1 = u := by simpa using h
    refine Or.inl (knownLoop_accepted env (schemeHost siteUrl) knownPatterns u ?_)
    rw [show knownLoop env (schemeHost siteUrl) knownPatterns =
      try_known_url_patterns env siteUrl from rfl, hk, hu]

/-- Claim C3 counterexample: the known-URL-pattern strategy accepts a
candidate through its own inline check, not through the shared
verification predicate — on a page body containing only the title variant
`'zanger ronald'` (no author, no ISBN) the finder returns the candidate
although `_verify_product_page` would reject that body. -/
theorem C3_inline_check_counterexample :
    (find_product_page knownHitHtmlEnv "Boekhandel X" "https://x.example").1 =
      some knownHitUrl ∧
    knownHitHtmlEnv.fetch knownHitUrl = some variantOnlyBody ∧
    verifyBody variantOnlyBody = false ∧
    knownAcceptBody variantOnlyBody = true := by
  refine ⟨by decide, by decide, by decide, by decide⟩

/-- Claim C3 (amended): candidates of the direct-crawl strategies are
accepted only through the shared `_verify_product_page` predicate
((title or its variant) and (author or variant), or the ISBN), while the
known-URL-pattern strategy accepts through its own inline check (title
variant or ISBN, no author required); every URL the finder returns passed
one of the two checks on its fetched body.  A page containing the
configured title and author verifies true; a page containing neither
(nor the variants nor the ISBN) verifies false even when its URL matches
the product-path heuristics. -/
theorem C3_verification_funnel :
    (∀ (env : HtmlEnv) (siteUrl u : String),
      (search_via_direct_crawl env siteUrl).1 = some u → verifiedAt env u) ∧
    (∀ (env : HtmlEnv) (siteUrl u : String),
      (try_known_url_patterns env siteUrl).1 = some u → knownAcceptedAt env u) ∧
    (∀ (env : HtmlEnv) (nm siteUrl u : String),
      (find_product_page env nm siteUrl).1 = some u →
        knownAcceptedAt env u ∨ verifiedAt env u) ∧
    verifyBody
      "Koop Zanger Ronald zingt de blues van Walter van den Berg hier" = true ∧
    (verifyBody "Welkom bij onze boekwinkel" = false ∧
      is_likely_product_page "https://x.nl/boek/welkom" = true) := by
  refine ⟨?_, ?_, find_product_page_accepted, by decide, by decide, by decide⟩
  · intro env siteUrl u h
    exact direct_verified env siteUrl u h
  · intro env siteUrl u h
    exact knownLoop_accepted env (schemeHost siteUrl) knownPatterns u h

/-! ## Orchestrator lemmas (`BookstoreCrawler.crawl_bookstore`) -/

theorem crawl_city_isSome (env : CrawlEnv) (rst : RobotsCheckerState)
    (name url : String) (prefPC prefCity : Option String) :
    (crawl_bookstore env rst name url prefPC prefCity).1.success = true →
      (crawl_bookstore env rst name url prefPC prefCity).1.city.isSome = true := by
  rcases hfp : find_product_page env.html name url with ⟨fpo, fpev⟩
  by_cases he : env.robotsEnabled = true
  · rcases hcf : can_fetch env.robotsOracle rst url with ⟨allowed, rst2, evs⟩
    cases allowed
    · simp [crawl_bookstore, he, hcf]
    · cases fpo
      · simp [crawl_bookstore, he, hcf, hfp]
      · 
        by_cases hpre : (truthyOpt prefPC && truthyOpt prefCity) = true
        · have h2 : truthyOpt prefCity = true := ((Bool.and_eq_true _ _).mp hpre).2
          cases prefCity with
          | none => simp [truthyOpt] at h2
          | some s => simp [crawl_bookstore, he, hcf, hfp, hpre]
        · rcases hfetch : env.html.fetch url with _ | body
          · simp [crawl_bookstore, he, hcf, hfp, hpre, hfetch]
          · rcases hex : extract_location env.html url (some body) with ⟨⟨pco, cityo⟩, exev⟩
            cases pco
            · simp [crawl_bookstore, he, hcf, hfp, hpre, hfetch, hex]
            · simp [crawl_bookstore, he, hcf, hfp, hpre, hfetch, hex]
  · cases fpo
    · simp [crawl_bookstore, he, hfp]
    · 
      by_cases hpre : (truthyOpt prefPC && truthyOpt prefCity) = true
      · have h2 : truthyOpt prefCity = true := ((Bool.and_eq_true _ _).mp hpre).2
        cases prefCity with
        | none => simp [truthyOpt] at h2
        | some s => simp [crawl_bookstore, he, hfp, hpre]
      · rcases hfetch : env.html.fetch url with _ | body
        · simp [crawl_bookstore, he, hfp, hpre, hfetch]
        · rcases hex : extract_location env.html url (some body) with ⟨⟨pco, cityo⟩, exev⟩
          cases pco
          · simp [crawl_bookstore, he, hfp, hpre, hfetch, hex]
          · simp [crawl_bookstore, he, hfp, hpre, hfetch, hex]

theorem crawl_city_unknown (env : CrawlEnv) (rst : RobotsCheckerState)
    (name url : String) (prefPC prefCity : Option String) (body pc : String)
    (hallow : env.robotsEnabled = false ∨ (can_fetch env.robotsOracle rst url).1 = true)
    (hfind : (find_product_page env.html name url).1.isSome = true)
    (hpre : (truthyOpt prefPC && truthyOpt prefCity) = false)
    (hfetch : env.html.fetch url = some body)
    (hex : (extract_location env.html url (some body)).1 = (some pc, none)) :
    (crawl_bookstore env rst name url prefPC prefCity).1.city = some "Unknown" ∧
    (crawl_bookstore env rst name url prefPC prefCity).1.success = true ∧
    (crawl_bookstore env rst name url prefPC prefCity).1.postal_code = some pc := by
  rcases hfp : find_product_page env.html name url with ⟨fpo, fpev⟩
  rcases fpo with _ | purl
  · rw [hfp] at hfind; simp at hfind
  · rcases hex2 : extract_location env.html url (some body) with ⟨⟨pco, cityo⟩, exev⟩
    rw [hex2] at hex
    simp only [Prod.mk.injEq] at hex
    obtain ⟨hpc, hcity⟩ := hex
    by_cases he : env.robotsEnabled = true
    · rcases hcf : can_fetch env.robotsOracle rst url with ⟨allowed, rst2, evs⟩
      have hall : allowed = true := by
        rcases hallow with h | h
        · rw [he] at h; exact absurd h (by simp)
        · rw [hcf] at h; exact h
      subst hall
      simp [crawl_bookstore, he, hcf, hfp, hpre, hfetch, hex2, hpc, hcity, pyOrStr]
    · simp [crawl_bookstore, he, hfp, hpre, hfetch, hex2, hpc, hcity, pyOrStr]

/-- Claim C1 counterexample: a bookstore with a prefilled postal code but
no prefilled city, whose product page is found but whose homepage cannot
be fetched, produces `success = false` although `product_url` is set and
`postal_code` is set (to the prefilled value) — the claimed equivalence
fails. -/
theorem C1_prefilled_counterexample :
    ((crawl_bookstore envPrefilledPC initRobots "Boekhandel X" "https://x.example"
        (some "1234 AB") none).1.success = false) ∧
    (successSpecOriginal
      (crawl_bookstore envPrefilledPC initRobots "Boekhandel X" "https://x.example"
        (some "1234 AB") none).1 (some "1234 AB") none = true) := by
  refine ⟨by decide, by decide⟩

/-- Claim C1 (amended): `success` is true iff the robots check allowed
the homepage URL, a product page was found, and either both prefilled
location fields were supplied or the homepage fetch succeeded and
extraction returned a postal code in this run.  (A prefilled postal code
alone does not make a failed extraction a success, although it leaves
`postal_code` set on the failed record.) -/
theorem C1_success_characterization (env : CrawlEnv) (rst : RobotsCheckerState)
    (name url : String) (prefPC prefCity : Option String) :
    (crawl_bookstore env rst name url prefPC prefCity).1.success = true ↔
      ((env.robotsEnabled = false ∨ (can_fetch env.robotsOracle rst url).1 = true) ∧
       (find_product_page env.html name url).1.isSome = true ∧
       ((truthyOpt prefPC && truthyOpt prefCity) = true ∨
        (∃ body, env.html.fetch url = some body ∧
          (extract_location env.html url (some body)).1.1.isSome = true))) := by
  rcases hfp : find_product_page env.html name url with ⟨fpo, fpev⟩
  by_cases he : env.robotsEnabled = true
  · rcases hcf : can_fetch env.robotsOracle rst url with ⟨allowed, rst2, evs⟩
    cases allowed
    · simp [crawl_bookstore, he, hcf]
    · cases fpo
      · simp [crawl_bookstore, he, hcf, hfp]
      · 
        by_cases hpre : (truthyOpt prefPC && truthyOpt prefCity) = true
        · simp [crawl_bookstore, he, hcf, hfp, hpre]
        · rcases hfetch : env.html.fetch url with _ | body
          · simp [crawl_bookstore, he, hcf, hfp, hpre, hfetch]
          · rcases hex : extract_location env.html url (some body) with ⟨⟨pco, cityo⟩, exev⟩
            cases pco
            · simp [crawl_bookstore, he, hcf, hfp, hpre, hfetch, hex]
            · simp [crawl_bookstore, he, hcf, hfp, hpre, hfetch, hex]
  · cases fpo
    · simp [crawl_bookstore, he, hfp]
    · 
      by_cases hpre : (truthyOpt prefPC && truthyOpt prefCity) = true
      · simp [crawl_bookstore, he, hfp, hpre]
      · rcases hfetch : env.html.fetch url with _ | body
        · simp [crawl_bookstore, he, hfp, hpre, hfetch]
        · rcases hex : extract_location env.html url (some body) with ⟨⟨pco, cityo⟩, exev⟩
          cases pco
          · simp [crawl_bookstore, he, hfp, hpre, hfetch, hex]
          · simp [crawl_bookstore, he, hfp, hpre, hfetch, hex]

/-- Claim C10: whenever a crawl succeeds through address extraction with
a postal code but no derivable city, the orchestrator stores the literal
city `"Unknown"`; consequently every successful `CrawlResult` has a
non-absent city (prefilled successes carry the nonempty prefilled city).
The closed instance exhibits a concrete run ending with
`city = "Unknown"`. -/
theorem C10_city_never_absent :
    (∀ (env : CrawlEnv) (rst : RobotsCheckerState) (name url : String)
        (prefPC prefCity : Option String),
      (crawl_bookstore env rst name url prefPC prefCity).1.success = true →
        (crawl_bookstore env rst name url prefPC prefCity).1.city.isSome = true) ∧
    (∀ (env : CrawlEnv) (rst : RobotsCheckerState) (name url : String)
        (prefPC prefCity : Option String) (body pc : String),
      (env.robotsEnabled = false ∨ (can_fetch env.robotsOracle rst url).1 = true) →
      (find_product_page env.html name url).1.isSome = true →
      (truthyOpt prefPC && truthyOpt prefCity) = false →
      env.html.fetch url = some body →
      (extract_location env.html url (some body)).1 = (some pc, none) →
        (crawl_bookstore env rst name url prefPC prefCity).1.city = some "Unknown" ∧
        (crawl_bookstore env rst name url prefPC prefCity).1.success = true ∧
        (crawl_bookstore env rst name url prefPC prefCity).1.postal_code = some pc) ∧
    ((crawl_bookstore envUnknownCity initRobots "Boekhandel X" "https://x.example"
        none none).1.city = some "Unknown" ∧
     (crawl_bookstore envUnknownCity initRobots "Boekhandel X" "https://x.example"
        none none).1.success = true ∧
     (crawl_bookstore envUnknownCity initRobots "Boekhandel X" "https://x.example"
        none none).1.postal_code = some "1234 AB") :=
  ⟨crawl_city_isSome, crawl_city_unknown,
    by decide, by decide, by decide⟩

end BookCrawler
